import Mathlib

/-!
Verification development for the MedZK claim workflow core:
the claim-bundle data contract (`claim-engine`), the cross-context
synchronization channel (`claim-sync`), the claim-status projection
(`use-claim-status`) and the insurer verification sequence
(`use-verifier`).

The TypeScript runtime values are modelled shallowly:
JavaScript objects whose fields may be absent at runtime become Lean
structures with `Option` fields; JavaScript truthiness (empty string,
zero, `undefined` are falsy) is made explicit; machine timestamps are
`Int`; JSON text is modelled by the JSON value it parses to, since
`JSON.parse (JSON.stringify x) = x` for the acyclic values involved.
-/

/-! ## Claim bundle model (`src/lib/claim-engine.ts`)

Runtime model of the `ClaimBundle` interface.  Every field can be
absent at runtime (a bundle reaches `validateBundle` through
`deserializeBundle`, which casts parsed JSON without checking most
fields), so each field is an `Option`.  A field whose JSON value has
the wrong type is modelled as absent; the claims under study only
involve well-typed or missing fields. -/

structure ProofObj where
  hash : Option String
  publicInputs : Option (List String)
  verificationKey : Option String
  circuit : Option String
  constraintCount : Option Int
  provingTimeMs : Option Int
deriving Repr, DecidableEq

structure PolicyObj where
  number : Option String
  claimType : Option String
  claimTypeLabel : Option String
  insurerName : Option String
  notes : Option String
deriving Repr, DecidableEq

structure PublicParams where
  thresholds : Option (List (String × Int))
  labIdentifier : Option String
deriving Repr, DecidableEq

structure ClaimBundle where
  version : Option String
  claimId : Option String
  policy : Option PolicyObj
  proof : Option ProofObj
  publicParams : Option PublicParams
  createdAt : Option Int
  expiresAt : Option Int
  submitterId : Option String
deriving Repr, DecidableEq

/-- JavaScript truthiness of a possibly-absent string:
`undefined` and `""` are falsy. -/
def truthyStr : Option String → Bool
  | some s => s ≠ ""
  | none => false

/-- JavaScript truthiness of `xs?.length` for a possibly-absent array:
falsy when the array is absent or empty. -/
def truthyLen : Option (List String) → Bool
  | some l => l.length ≠ 0
  | none => false

/-- JavaScript truthiness of a possibly-absent number:
`undefined` and `0` are falsy. -/
def truthyInt : Option Int → Bool
  | some n => n ≠ 0
  | none => false

/-- The expiry condition of `validateBundle`:
`bundle.expiresAt && bundle.expiresAt < Date.now()`. -/
def expiredCheck (b : ClaimBundle) (now : Int) : Bool :=
  match b.expiresAt with
  | some e => e ≠ 0 && e < now
  | none => false

/-- The error list accumulated by `validateBundle`
(`src/lib/claim-engine.ts`), in source push order. -/
def validationErrors (b : ClaimBundle) (now : Int) : List String :=
  (if truthyStr b.version then [] else ["Missing version"]) ++
  (if truthyStr b.claimId then [] else ["Missing claim ID"]) ++
  (if truthyStr (b.proof.bind ProofObj.hash) then [] else ["Missing proof hash"]) ++
  (if truthyStr (b.proof.bind ProofObj.verificationKey) then []
    else ["Missing verification key"]) ++
  (if truthyLen (b.proof.bind ProofObj.publicInputs) then []
    else ["Missing public inputs"]) ++
  (if truthyStr (b.policy.bind PolicyObj.number) then [] else ["Missing policy number"]) ++
  (if truthyStr (b.policy.bind PolicyObj.claimType) then [] else ["Missing claim type"]) ++
  (if expiredCheck b now then ["Claim bundle has expired"] else [])

/-- `validateBundle` returns `{valid: errors.length === 0, errors}`. -/
def validateBundle (b : ClaimBundle) (now : Int) : Bool × List String :=
  ((validationErrors b now).isEmpty, validationErrors b now)

/-- `isExpired`: `bundle.expiresAt < Date.now()`; when `expiresAt` is
absent the JavaScript comparison involves `NaN` and yields `false`. -/
def isExpired (b : ClaimBundle) (now : Int) : Bool :=
  match b.expiresAt with
  | some e => e < now
  | none => false

/-- A sample policy object with the required fields present. -/
def samplePolicy : PolicyObj where
  number := some "P-12345"
  claimType := some "general_health"
  claimTypeLabel := some "General Health Verification"
  insurerName := some "Acme Insurance"
  notes := some ""

/-- A sample proof object with the required fields present. -/
def sampleProof : ProofObj where
  hash := some "0xabc"
  publicInputs := some ["0x01", "0x02"]
  verificationKey := some "0xkey"
  circuit := some "medical_threshold_v1.nr"
  constraintCount := some 2048
  provingTimeMs := some 1500

/-- A sample claim bundle with every required field present and
`expiresAt = 50`. -/
def sampleBundle : ClaimBundle where
  version := some "1.0.0"
  claimId := some "CLM-1"
  policy := some samplePolicy
  proof := some sampleProof
  publicParams := some { thresholds := some [("sugar", 126), ("cholesterol", 200)],
                         labIdentifier := some "Metro Diagnostics Lab" }
  createdAt := some 10
  expiresAt := some 50
  submitterId := some "0x0123456789abcdef"

/-! ## JSON values

`serializeBundle` is `JSON.stringify` and `deserializeBundle` is
`JSON.parse` followed by a signature check and a cast.  Serialized
text is modelled by the JSON value it parses back to (stringify
followed by parse is the identity on the acyclic values involved), so
serialization produces a `Json` value and deserialization consumes
one. -/

inductive Json where
  | null
  | bool (b : Bool)
  | num (n : Int)
  | str (s : String)
  | arr (elems : List Json)
  | obj (fields : List (String × Json))
deriving Repr

/-- First-match lookup of a key among an object's fields. -/
def lookupField : List (String × Json) → String → Option Json
  | [], _ => none
  | (k', v) :: rest, k => if k' = k then some v else lookupField rest k

/-- JavaScript property access `j.k` on a parsed value. -/
def Json.getField (j : Json) (k : String) : Option Json :=
  match j with
  | .obj fs => lookupField fs k
  | _ => none

/-- Read a string-valued field; a missing or non-string value is
modelled as absent. -/
def asStr : Option Json → Option String
  | some (.str s) => some s
  | _ => none

/-- Read a number-valued field; a missing or non-numeric value is
modelled as absent. -/
def asInt : Option Json → Option Int
  | some (.num n) => some n
  | _ => none

/-- Read the elements of a JSON array as strings. -/
def decodeStrElems : List Json → Option (List String)
  | [] => some []
  | .str s :: es => (decodeStrElems es).map (fun l => s :: l)
  | _ :: _ => none

/-- Read an array of strings; anything else is modelled as absent. -/
def asStrList : Option Json → Option (List String)
  | some (.arr es) => decodeStrElems es
  | _ => none

/-- Read the fields of a JSON object as numeric entries. -/
def decodeIntEntries : List (String × Json) → Option (List (String × Int))
  | [] => some []
  | (k, .num n) :: fs => (decodeIntEntries fs).map (fun l => (k, n) :: l)
  | _ :: _ => none

/-- Read an object of numeric fields (the `thresholds` record);
anything else is modelled as absent. -/
def asIntMap : Option Json → Option (List (String × Int))
  | some (.obj fs) => decodeIntEntries fs
  | _ => none

/-- Encode an optional string field; `JSON.stringify` omits absent
properties. -/
def encStr (k : String) : Option String → List (String × Json)
  | some s => [(k, .str s)]
  | none => []

/-- Encode an optional numeric field. -/
def encInt (k : String) : Option Int → List (String × Json)
  | some n => [(k, .num n)]
  | none => []

/-- Encode an optional string-array field. -/
def encStrList (k : String) : Option (List String) → List (String × Json)
  | some l => [(k, .arr (l.map .str))]
  | none => []

/-- Encode the optional `thresholds` record. -/
def encIntMap (k : String) : Option (List (String × Int)) → List (String × Json)
  | some l => [(k, .obj (l.map fun p => (p.1, .num p.2)))]
  | none => []

/-- Encode an optional object-valued field. -/
def encObj (k : String) (f : α → Json) : Option α → List (String × Json)
  | some a => [(k, f a)]
  | none => []

def encodePolicy (p : PolicyObj) : Json :=
  .obj (encStr "number" p.number ++ encStr "claimType" p.claimType ++
    encStr "claimTypeLabel" p.claimTypeLabel ++ encStr "insurerName" p.insurerName ++
    encStr "notes" p.notes)

def encodeProof (p : ProofObj) : Json :=
  .obj (encStr "hash" p.hash ++ encStrList "publicInputs" p.publicInputs ++
    encStr "verificationKey" p.verificationKey ++ encStr "circuit" p.circuit ++
    encInt "constraintCount" p.constraintCount ++ encInt "provingTimeMs" p.provingTimeMs)

def encodePublicParams (p : PublicParams) : Json :=
  .obj (encIntMap "thresholds" p.thresholds ++ encStr "labIdentifier" p.labIdentifier)

/-- `serializeBundle`: the JSON text `JSON.stringify(bundle, null, 2)`
produces, represented by the value it parses back to. -/
def serializeBundle (b : ClaimBundle) : Json :=
  .obj (encStr "version" b.version ++ encStr "claimId" b.claimId ++
    encObj "policy" encodePolicy b.policy ++ encObj "proof" encodeProof b.proof ++
    encObj "publicParams" encodePublicParams b.publicParams ++
    encInt "createdAt" b.createdAt ++ encInt "expiresAt" b.expiresAt ++
    encStr "submitterId" b.submitterId)

def decodePolicy : Option Json → Option PolicyObj
  | some (.obj fs) => some
      { number := asStr (lookupField fs "number"),
        claimType := asStr (lookupField fs "claimType"),
        claimTypeLabel := asStr (lookupField fs "claimTypeLabel"),
        insurerName := asStr (lookupField fs "insurerName"),
        notes := asStr (lookupField fs "notes") }
  | _ => none

def decodeProof : Option Json → Option ProofObj
  | some (.obj fs) => some
      { hash := asStr (lookupField fs "hash"),
        publicInputs := asStrList (lookupField fs "publicInputs"),
        verificationKey := asStr (lookupField fs "verificationKey"),
        circuit := asStr (lookupField fs "circuit"),
        constraintCount := asInt (lookupField fs "constraintCount"),
        provingTimeMs := asInt (lookupField fs "provingTimeMs") }
  | _ => none

def decodePublicParams : Option Json → Option PublicParams
  | some (.obj fs) => some
      { thresholds := asIntMap (lookupField fs "thresholds"),
        labIdentifier := asStr (lookupField fs "labIdentifier") }
  | _ => none

/-- View of a parsed JSON value as a runtime `ClaimBundle` — the
semantics of the TypeScript cast `parsed as ClaimBundle`. -/
def decodeBundle (j : Json) : ClaimBundle :=
  { version := asStr (j.getField "version"),
    claimId := asStr (j.getField "claimId"),
    policy := decodePolicy (j.getField "policy"),
    proof := decodeProof (j.getField "proof"),
    publicParams := decodePublicParams (j.getField "publicParams"),
    createdAt := asInt (j.getField "createdAt"),
    expiresAt := asInt (j.getField "expiresAt"),
    submitterId := asStr (j.getField "submitterId") }

/-- `deserializeBundle`: parse, then accept exactly when the three
signature fields `version`, `claimId` and `proof.hash` are truthy;
otherwise return `null`.  (Unparseable text, modelled as having no
JSON value at all, also yields `null` in the source.) -/
def deserializeBundle (j : Json) : Option ClaimBundle :=
  let parsed := decodeBundle j
  if truthyStr parsed.version && truthyStr parsed.claimId &&
      truthyStr (parsed.proof.bind ProofObj.hash) then
    some parsed
  else
    none

/-! ### Removing required fields -/

/-- The seven required fields of a claim bundle. -/
inductive ReqField where
  | version
  | claimId
  | proofHash
  | proofVerificationKey
  | proofPublicInputs
  | policyNumber
  | policyClaimType
deriving Repr, DecidableEq

/-- Remove one required field from a bundle (delete the property, so
the runtime object reads it as `undefined`). -/
def removeReqField : ReqField → ClaimBundle → ClaimBundle
  | .version, b => { b with version := none }
  | .claimId, b => { b with claimId := none }
  | .proofHash, b => { b with proof := b.proof.map fun p => { p with hash := none } }
  | .proofVerificationKey, b =>
      { b with proof := b.proof.map fun p => { p with verificationKey := none } }
  | .proofPublicInputs, b =>
      { b with proof := b.proof.map fun p => { p with publicInputs := none } }
  | .policyNumber, b => { b with policy := b.policy.map fun p => { p with number := none } }
  | .policyClaimType, b =>
      { b with policy := b.policy.map fun p => { p with claimType := none } }

/-- The error message `validateBundle` reports for each missing
required field. -/
def reqFieldError : ReqField → String
  | .version => "Missing version"
  | .claimId => "Missing claim ID"
  | .proofHash => "Missing proof hash"
  | .proofVerificationKey => "Missing verification key"
  | .proofPublicInputs => "Missing public inputs"
  | .policyNumber => "Missing policy number"
  | .policyClaimType => "Missing claim type"

/-- The truthiness test `validateBundle` applies to each required
field. -/
def reqTruthy : ReqField → ClaimBundle → Bool
  | .version, b => truthyStr b.version
  | .claimId, b => truthyStr b.claimId
  | .proofHash, b => truthyStr (b.proof.bind ProofObj.hash)
  | .proofVerificationKey, b => truthyStr (b.proof.bind ProofObj.verificationKey)
  | .proofPublicInputs, b => truthyLen (b.proof.bind ProofObj.publicInputs)
  | .policyNumber, b => truthyStr (b.policy.bind PolicyObj.number)
  | .policyClaimType, b => truthyStr (b.policy.bind PolicyObj.claimType)

/-- The contribution of one required field to the error list. -/
def reqErrSeg (f : ReqField) (b : ClaimBundle) : List String :=
  if reqTruthy f b then [] else [reqFieldError f]

/-- The sample bundle with its `expiresAt` property deleted. -/
def bundleNoExpiry : ClaimBundle := { sampleBundle with expiresAt := none }

/-- The sample bundle with `expiresAt` equal to `0`. -/
def bundleZeroExpiry : ClaimBundle := { sampleBundle with expiresAt := some 0 }

/-- A JSON input carrying only the three signature fields that
`deserializeBundle` checks. -/
def partialBundleJson : Json :=
  .obj [("version", .str "1.0.0"), ("claimId", .str "CLM-10"),
        ("proof", .obj [("hash", .str "0xdead")])]

/-- The runtime bundle `partialBundleJson` casts to. -/
def partialBundle : ClaimBundle where
  version := some "1.0.0"
  claimId := some "CLM-10"
  policy := none
  proof := some { hash := some "0xdead", publicInputs := none, verificationKey := none,
                  circuit := none, constraintCount := none, provingTimeMs := none }
  publicParams := none
  createdAt := none
  expiresAt := none
  submitterId := none

/-! ## Synchronization channel (`src/lib/claim-sync.ts`)

State of one execution context: the durable per-claim store
(`localStorage`), the claim-specific and global listener registries,
and whether the `BroadcastChannel` API is available.  Listeners are
identified by numeric tokens.  `publishStatusUpdate` returns, besides
the new state, the list of same-context callback invocations it
performs before returning and the messages it posts on the broadcast
channel; both are produced synchronously by the function itself. -/

structure UpdateData where
  referenceNumber : Option String
  reviewerNotes : Option String
  decidedAt : Option Int
  verifiedAt : Option Int
deriving Repr, DecidableEq

structure ClaimStatusUpdate where
  claimId : String
  status : String
  timestamp : Int
  data : Option UpdateData
deriving Repr, DecidableEq

structure ClaimRecord where
  claimId : String
  history : List ClaimStatusUpdate
  currentStatus : String
  lastUpdated : Int
deriving Repr, DecidableEq

structure SyncState where
  store : List (String × ClaimRecord)
  listeners : List (String × Nat)
  globalListeners : List Nat
  channelAvailable : Bool
deriving Repr, DecidableEq

/-- One synchronous same-context callback invocation. -/
structure Delivery where
  listenerId : Nat
  update : ClaimStatusUpdate
deriving Repr, DecidableEq

/-- Everything `publishStatusUpdate` does: the state after the call,
the same-context invocations performed before returning, and the
broadcast messages posted for other contexts. -/
structure PublishResult where
  state : SyncState
  localDeliveries : List Delivery
  broadcast : List ClaimStatusUpdate
deriving Repr, DecidableEq

/-- `getStorageKey`: the fixed prefix plus the claim id. -/
def getStorageKey (claimId : String) : String :=
  "medzk_claim_" ++ claimId

/-- `localStorage.getItem`: first entry stored under the key. -/
def getItem : List (String × ClaimRecord) → String → Option ClaimRecord
  | [], _ => none
  | (k', v) :: rest, k => if k' = k then some v else getItem rest k

/-- `localStorage.setItem`: replace the entry under the key, or append
a new one. -/
def setItem : List (String × ClaimRecord) → String → ClaimRecord → List (String × ClaimRecord)
  | [], k, v => [(k, v)]
  | (k', v') :: rest, k, v =>
      if k' = k then (k, v) :: rest else (k', v') :: setItem rest k v

/-- `loadRecord`: read the stored record for a claim. -/
def loadRecord (s : SyncState) (claimId : String) : Option ClaimRecord :=
  getItem s.store (getStorageKey claimId)

/-- `getClaimRecord`: the public synchronous read of the durable log. -/
def getClaimRecord (s : SyncState) (claimId : String) : Option ClaimRecord :=
  loadRecord s claimId

/-- `publishStatusUpdate`: load-or-create the record, append the
update to its history, overwrite `currentStatus` and `lastUpdated`
with the update's values, save, post on the broadcast channel when
available, and invoke the same-context claim and global listeners. -/
def publishStatusUpdate (s : SyncState) (u : ClaimStatusUpdate) : PublishResult :=
  let existing := loadRecord s u.claimId
  let record0 := existing.getD
    { claimId := u.claimId, history := [], currentStatus := u.status,
      lastUpdated := u.timestamp }
  let record := { record0 with
                  history := record0.history ++ [u],
                  currentStatus := u.status, lastUpdated := u.timestamp }
  let store := setItem s.store (getStorageKey u.claimId) record
  let claimDeliveries :=
    (s.listeners.filter fun p => p.1 = u.claimId).map fun p => Delivery.mk p.2 u
  let globalDeliveries := s.globalListeners.map fun lid => Delivery.mk lid u
  { state := { s with store := store },
    localDeliveries := claimDeliveries ++ globalDeliveries,
    broadcast := if s.channelAvailable then [u] else [] }

/-- `subscribeToClaimUpdates`: register a same-context listener for a
claim id.  (The returned unsubscribe closure is not needed by the
properties below.) -/
def subscribeToClaimUpdates (s : SyncState) (claimId : String) (lid : Nat) : SyncState :=
  { s with listeners := s.listeners ++ [(claimId, lid)] }

/-- A context with empty storage and no listeners. -/
def emptySyncState : SyncState :=
  { store := [], listeners := [], globalListeners := [], channelAvailable := true }

/-- The update with the later timestamp (delivered first). -/
def updateT2 : ClaimStatusUpdate :=
  { claimId := "CLM-1", status := "approved", timestamp := 200, data := none }

/-- The update with the earlier timestamp (delivered last). -/
def updateT1 : ClaimStatusUpdate :=
  { claimId := "CLM-1", status := "under_review", timestamp := 100, data := none }

/-- The fresh record `publishStatusUpdate` creates when no record is
stored yet for the claim. -/
def emptyRecordFor (u : ClaimStatusUpdate) : ClaimRecord where
  claimId := u.claimId
  history := []
  currentStatus := u.status
  lastUpdated := u.timestamp

/-- The record `publishStatusUpdate` stores: the previous record (or a
fresh one) with the update appended and the summary fields
overwritten. -/
def publishedRecord (s : SyncState) (u : ClaimStatusUpdate) : ClaimRecord where
  claimId := ((loadRecord s u.claimId).getD (emptyRecordFor u)).claimId
  history := ((loadRecord s u.claimId).getD (emptyRecordFor u)).history ++ [u]
  currentStatus := u.status
  lastUpdated := u.timestamp

/-! ## Claim status projection (`src/hooks/use-claim-status.ts`)

`currentStatus` is a string at runtime (the TypeScript union is not
enforced on stored data), so the projection is modelled over arbitrary
strings, which the unknown-status edge case requires. -/

inductive StepStatus where
  | complete
  | current
  | pending
deriving Repr, DecidableEq

structure StatusStep where
  id : String
  label : String
  description : String
  status : StepStatus
  timestamp : Option Int
  data : Option UpdateData
deriving Repr, DecidableEq

/-- The canonical progression `STATUS_ORDER`. -/
def STATUS_ORDER : List String :=
  ["proof_generated", "claim_submitted", "under_review", "verified", "approved"]

/-- JavaScript `Array.prototype.indexOf`: index of the first
occurrence, `-1` when absent. -/
def indexOfStr : List String → String → Int
  | [], _ => -1
  | x :: xs, s =>
      if x = s then 0
      else
        let r := indexOfStr xs s
        if r = -1 then -1 else r + 1

/-- `getStatusIndex`: `rejected` maps to the index of `approved`,
everything else to its own index in `STATUS_ORDER` (`-1` when
absent). -/
def getStatusIndex (status : String) : Int :=
  if status = "rejected" then indexOfStr STATUS_ORDER "approved"
  else indexOfStr STATUS_ORDER status

/-- The `label` entries of `STATUS_META`. -/
def statusLabel (s : String) : String :=
  if s = "proof_generated" then "Proof Generated"
  else if s = "claim_submitted" then "Claim Submitted"
  else if s = "under_review" then "Under Review"
  else if s = "verified" then "Proof Verified"
  else if s = "approved" then "Claim Approved"
  else if s = "rejected" then "Claim Rejected"
  else ""

/-- The `description` entries of `STATUS_META`. -/
def statusDescription (s : String) : String :=
  if s = "proof_generated" then "Zero-knowledge proof created locally on your device"
  else if s = "claim_submitted" then "Claim bundle shared with insurance company"
  else if s = "under_review" then "Insurance company reviewing the claim"
  else if s = "verified" then "Cryptographic proof verified successfully"
  else if s = "approved" then "Insurance claim approved — payout initiated"
  else if s = "rejected" then "Insurance claim was rejected"
  else ""

/-- A step's description: the matching history entry's reviewer notes
when truthy, the static description otherwise. -/
def stepDescription (statusId : String) (historyEntry : Option ClaimStatusUpdate) :
    String :=
  match (historyEntry.bind ClaimStatusUpdate.data).bind UpdateData.reviewerNotes with
  | some notes => if notes = "" then statusDescription statusId else notes
  | none => statusDescription statusId

/-- `buildSteps`: map the canonical progression to display steps,
special-casing a rejected claim at the final index. -/
def buildSteps (currentStatus : String) (history : List ClaimStatusUpdate) :
    List StatusStep :=
  let currentIdx := getStatusIndex currentStatus
  let isRejected := currentStatus = "rejected"
  STATUS_ORDER.enum.map fun p =>
    let idx := p.1
    let statusId := p.2
    let historyEntry := history.find? fun h => h.status = statusId
    if idx = STATUS_ORDER.length - 1 ∧ isRejected then
      let rejectedEntry := history.find? fun h => h.status = "rejected"
      { id := "rejected", label := statusLabel "rejected",
        description := statusDescription "rejected",
        status := .current,
        timestamp := rejectedEntry.map ClaimStatusUpdate.timestamp,
        data := rejectedEntry.bind ClaimStatusUpdate.data }
    else
      { id := statusId, label := statusLabel statusId,
        description := stepDescription statusId historyEntry,
        status :=
          if (idx : Int) < currentIdx then .complete
          else if (idx : Int) = currentIdx ∧ ¬ isRejected then .current
          else .pending,
        timestamp := historyEntry.map ClaimStatusUpdate.timestamp,
        data := historyEntry.bind ClaimStatusUpdate.data }

/-- The default used when reading a step by index. -/
def defaultStep : StatusStep where
  id := ""
  label := ""
  description := ""
  status := .pending
  timestamp := none
  data := none

/-- A record whose current status is `verified`. -/
def verifiedRecord : ClaimRecord where
  claimId := "CLM-1"
  history := []
  currentStatus := "verified"
  lastUpdated := 0

/-- A record whose current status is `rejected`. -/
def rejectedRecord : ClaimRecord where
  claimId := "CLM-1"
  history := []
  currentStatus := "rejected"
  lastUpdated := 0

/-! ## Insurer verification sequence (`src/hooks/use-verifier.ts`)

`verify` awaits the external cryptographic oracle
(`engineVerifyProof`); the awaited result enters the model as the
`cryptoValid` parameter.  The checks, the aggregated result and the
resulting state are pure functions of the loaded bundle, the clock and
that oracle answer. -/

inductive VerifierState where
  | AWAITING
  | PARSING
  | PARSED
  | VERIFYING
  | VALID
  | INVALID
  | APPROVED
  | REJECTED
deriving Repr, DecidableEq

structure VerificationCheck where
  label : String
  passed : Bool
  detail : String
deriving Repr, DecidableEq

structure VerificationResult where
  isValid : Bool
  timestamp : Int
  checks : List VerificationCheck
deriving Repr, DecidableEq

/-- Number of public inputs carried by the bundle's proof. -/
def publicInputCount (b : ClaimBundle) : Nat :=
  ((b.proof.bind ProofObj.publicInputs).getD []).length

/-- The circuit identifier as interpolated into the check detail
(`undefined` when absent). -/
def circuitText (b : ClaimBundle) : String :=
  match b.proof.bind ProofObj.circuit with
  | some c => c
  | none => "undefined"

/-- Detail string of a passing expiry check:
`Math.ceil((expiresAt - now) / 86400000)` remaining days (`NaN` when
`expiresAt` is absent). -/
def expiryDaysDetail (b : ClaimBundle) (now : Int) : String :=
  match b.expiresAt with
  | some e => "Valid for " ++ toString ((e - now + 86399999) / 86400000) ++ " more days"
  | none => "Valid for NaN more days"

/-- The five checks `verify` runs, in source order.  Every check is
computed and recorded independently of the others' outcomes. -/
def verifyChecks (b : ClaimBundle) (now : Int) (cryptoValid : Bool) :
    List VerificationCheck :=
  [ { label := "Bundle Structure",
      passed := (validateBundle b now).fst,
      detail := if (validateBundle b now).fst then "All required fields present"
        else String.intercalate ", " (validateBundle b now).snd },
    { label := "Expiry Check",
      passed := !(isExpired b now),
      detail := if isExpired b now then "Claim bundle has expired"
        else expiryDaysDetail b now },
    { label := "Circuit Identifier",
      passed := truthyStr (b.proof.bind ProofObj.circuit),
      detail := "Circuit: " ++ circuitText b },
    { label := "Cryptographic Proof",
      passed := cryptoValid,
      detail := if cryptoValid then "Proof mathematically verified against verification key"
        else "Proof verification failed — invalid or tampered" },
    { label := "Public Inputs",
      passed := decide (0 < publicInputCount b),
      detail := toString (publicInputCount b) ++ " public signals verified" } ]

/-- The `VerificationResult` `verify` stores: `isValid` is the
conjunction of all checks. -/
def verifyResult (b : ClaimBundle) (now : Int) (cryptoValid : Bool) :
    VerificationResult where
  isValid := (verifyChecks b now cryptoValid).all VerificationCheck.passed
  timestamp := now
  checks := verifyChecks b now cryptoValid

/-- The state `verify` transitions to. -/
def verifyFinalState (b : ClaimBundle) (now : Int) (cryptoValid : Bool) :
    VerifierState :=
  if (verifyChecks b now cryptoValid).all VerificationCheck.passed then .VALID
  else .INVALID


/-! ## Properties -/

/-! ### Serialization round-trip lemmas -/

@[simp]
theorem lookupField_append (xs ys : List (String × Json)) (k : String) :
    lookupField (xs ++ ys) k = (lookupField xs k).or (lookupField ys k) := by
  induction xs with
  | nil => simp [lookupField]
  | cons p rest ih =>
      obtain ⟨k', v⟩ := p
      by_cases h : k' = k <;> simp [lookupField, h, ih]

@[simp]
theorem lookupField_encStr_self (k : String) (o : Option String) :
    lookupField (encStr k o) k = o.map Json.str := by
  cases o <;> simp [encStr, lookupField]

@[simp]
theorem lookupField_encStr_ne (k k' : String) (o : Option String) (h : k ≠ k') :
    lookupField (encStr k o) k' = none := by
  cases o <;> simp [encStr, lookupField, h]

@[simp]
theorem lookupField_encInt_self (k : String) (o : Option Int) :
    lookupField (encInt k o) k = o.map Json.num := by
  cases o <;> simp [encInt, lookupField]

@[simp]
theorem lookupField_encInt_ne (k k' : String) (o : Option Int) (h : k ≠ k') :
    lookupField (encInt k o) k' = none := by
  cases o <;> simp [encInt, lookupField, h]

@[simp]
theorem lookupField_encStrList_self (k : String) (o : Option (List String)) :
    lookupField (encStrList k o) k = o.map (fun l => Json.arr (l.map Json.str)) := by
  cases o <;> simp [encStrList, lookupField]

@[simp]
theorem lookupField_encStrList_ne (k k' : String) (o : Option (List String)) (h : k ≠ k') :
    lookupField (encStrList k o) k' = none := by
  cases o <;> simp [encStrList, lookupField, h]

@[simp]
theorem lookupField_encIntMap_self (k : String) (o : Option (List (String × Int))) :
    lookupField (encIntMap k o) k
      = o.map (fun l => Json.obj (l.map fun p => (p.1, Json.num p.2))) := by
  cases o <;> simp [encIntMap, lookupField]

@[simp]
theorem lookupField_encIntMap_ne (k k' : String) (o : Option (List (String × Int)))
    (h : k ≠ k') : lookupField (encIntMap k o) k' = none := by
  cases o <;> simp [encIntMap, lookupField, h]

@[simp]
theorem lookupField_encObj_self {α : Type} (k : String) (f : α → Json) (o : Option α) :
    lookupField (encObj k f o) k = o.map f := by
  cases o <;> simp [encObj, lookupField]

@[simp]
theorem lookupField_encObj_ne {α : Type} (k k' : String) (f : α → Json) (o : Option α)
    (h : k ≠ k') : lookupField (encObj k f o) k' = none := by
  cases o <;> simp [encObj, lookupField, h]

@[simp]
theorem asStr_map_str (o : Option String) : asStr (o.map Json.str) = o := by
  cases o <;> rfl

@[simp]
theorem asInt_map_num (o : Option Int) : asInt (o.map Json.num) = o := by
  cases o <;> rfl

@[simp]
theorem decodeStrElems_map_str (l : List String) :
    decodeStrElems (l.map Json.str) = some l := by
  induction l with
  | nil => rfl
  | cons x xs ih => simp [decodeStrElems, ih]

@[simp]
theorem asStrList_roundtrip (o : Option (List String)) :
    asStrList (o.map fun l => Json.arr (l.map Json.str)) = o := by
  cases o with
  | none => rfl
  | some l => simp [asStrList]

@[simp]
theorem decodeIntEntries_map_num (l : List (String × Int)) :
    decodeIntEntries (l.map fun p => (p.1, Json.num p.2)) = some l := by
  induction l with
  | nil => rfl
  | cons x xs ih => simp [decodeIntEntries, ih]

@[simp]
theorem asIntMap_roundtrip (o : Option (List (String × Int))) :
    asIntMap (o.map fun l => Json.obj (l.map fun p => (p.1, Json.num p.2))) = o := by
  cases o with
  | none => rfl
  | some l => simp [asIntMap]

@[simp]
theorem decodePolicy_encodePolicy (p : PolicyObj) :
    decodePolicy (some (encodePolicy p)) = some p := by
  obtain ⟨n, ct, ctl, inm, nt⟩ := p
  simp [decodePolicy, encodePolicy]

@[simp]
theorem decodeProof_encodeProof (p : ProofObj) :
    decodeProof (some (encodeProof p)) = some p := by
  obtain ⟨h, pi, vk, c, cc, pt⟩ := p
  simp [decodeProof, encodeProof]

@[simp]
theorem decodePublicParams_encodePublicParams (p : PublicParams) :
    decodePublicParams (some (encodePublicParams p)) = some p := by
  obtain ⟨t, l⟩ := p
  simp [decodePublicParams, encodePublicParams]

@[simp]
theorem decodePolicy_map (o : Option PolicyObj) :
    decodePolicy (o.map encodePolicy) = o := by
  cases o with
  | none => rfl
  | some p => simp

@[simp]
theorem decodeProof_map (o : Option ProofObj) :
    decodeProof (o.map encodeProof) = o := by
  cases o with
  | none => rfl
  | some p => simp

@[simp]
theorem decodePublicParams_map (o : Option PublicParams) :
    decodePublicParams (o.map encodePublicParams) = o := by
  cases o with
  | none => rfl
  | some p => simp

/-- Decoding inverts encoding: the parsed form of a serialized bundle
casts back to the original runtime bundle. -/
theorem decodeBundle_serializeBundle (b : ClaimBundle) :
    decodeBundle (serializeBundle b) = b := by
  obtain ⟨v, cid, pol, prf, pp, ca, ea, sid⟩ := b
  simp [decodeBundle, serializeBundle, Json.getField]

/-! ### Characterizing validity -/

@[simp]
theorem isEmpty_append_strs (l1 l2 : List String) :
    (l1 ++ l2).isEmpty = (l1.isEmpty && l2.isEmpty) := by
  cases l1 <;> simp

@[simp]
theorem isEmpty_errIfNot (c : Bool) (e : String) :
    (if c then ([] : List String) else [e]).isEmpty = c := by
  cases c <;> rfl

@[simp]
theorem isEmpty_errIf (c : Bool) (e : String) :
    (if c then [e] else ([] : List String)).isEmpty = !c := by
  cases c <;> rfl

/-- The result of `validateBundle` is `valid` exactly when each of the
seven required fields is truthy and the expiry condition does not
fire. -/
theorem validateBundle_fst_iff (b : ClaimBundle) (now : Int) :
    (validateBundle b now).fst = true ↔
      (truthyStr b.version = true ∧ truthyStr b.claimId = true ∧
       truthyStr (b.proof.bind ProofObj.hash) = true ∧
       truthyStr (b.proof.bind ProofObj.verificationKey) = true ∧
       truthyLen (b.proof.bind ProofObj.publicInputs) = true ∧
       truthyStr (b.policy.bind PolicyObj.number) = true ∧
       truthyStr (b.policy.bind PolicyObj.claimType) = true ∧
       expiredCheck b now = false) := by
  simp [validateBundle, validationErrors]

/-- C2: for every bundle that `validateBundle` accepts, deserializing
its serialized form returns exactly the original bundle. -/
theorem C2_serialize_roundtrip (b : ClaimBundle) (now : Int)
    (h : (validateBundle b now).fst = true) :
    deserializeBundle (serializeBundle b) = some b := by
  have hv := (validateBundle_fst_iff b now).mp h
  simp [deserializeBundle, decodeBundle_serializeBundle, hv.1, hv.2.1, hv.2.2.1]

/-- Witness for C2 at the sample bundle, before its expiry. -/
theorem C2_serialize_roundtrip_witness :
    (validateBundle sampleBundle 40).fst = true ∧
      deserializeBundle (serializeBundle sampleBundle) = some sampleBundle :=
  ⟨by decide, C2_serialize_roundtrip sampleBundle 40 (by decide)⟩

/-- The error list decomposes into one segment per required field plus
the expiry segment. -/
theorem validationErrors_segs (b : ClaimBundle) (now : Int) :
    validationErrors b now =
      reqErrSeg .version b ++ reqErrSeg .claimId b ++ reqErrSeg .proofHash b ++
      reqErrSeg .proofVerificationKey b ++ reqErrSeg .proofPublicInputs b ++
      reqErrSeg .policyNumber b ++ reqErrSeg .policyClaimType b ++
      (if expiredCheck b now then ["Claim bundle has expired"] else []) := rfl

/-- Removing a required field never touches `expiresAt`. -/
theorem expiredCheck_removeReqField (f : ReqField) (b : ClaimBundle) (now : Int) :
    expiredCheck (removeReqField f b) now = expiredCheck b now := by
  cases f <;> rfl

/-- Removing a required field makes its own truthiness test fail. -/
theorem reqTruthy_remove_self (f : ReqField) (b : ClaimBundle) :
    reqTruthy f (removeReqField f b) = false := by
  obtain ⟨v, cid, pol, prf, pp, ca, ea, sid⟩ := b
  cases f <;>
    first
      | rfl
      | (cases prf <;> rfl)
      | (cases pol <;> rfl)

/-- Removing one required field leaves every other required field's
truthiness test unchanged. -/
theorem reqTruthy_remove_other (f g : ReqField) (b : ClaimBundle) (h : f ≠ g) :
    reqTruthy g (removeReqField f b) = reqTruthy g b := by
  obtain ⟨v, cid, pol, prf, pp, ca, ea, sid⟩ := b
  cases prf <;> cases pol <;> cases f <;> cases g <;>
    first
      | exact absurd rfl h
      | rfl

/-- Distinct required fields report distinct error messages. -/
theorem reqFieldError_ne (f g : ReqField) (h : f ≠ g) :
    reqFieldError f ≠ reqFieldError g := by
  cases f <;> cases g <;> first | exact absurd rfl h | simp [reqFieldError]

/-- A required field whose truthiness test fails contributes its error
message to the error list. -/
theorem mem_validationErrors_of_reqTruthy_eq_false (g : ReqField) (b : ClaimBundle)
    (now : Int) (h : reqTruthy g b = false) :
    reqFieldError g ∈ validationErrors b now := by
  have hseg : reqErrSeg g b = [reqFieldError g] := by simp [reqErrSeg, h]
  rw [validationErrors_segs]
  cases g <;> simp [hseg]

/-- A list holding two distinct elements has length at least two. -/
theorem two_le_length_of_two_mem {l : List String} {a b : String}
    (ha : a ∈ l) (hb : b ∈ l) (hab : a ≠ b) : 2 ≤ l.length := by
  induction l with
  | nil => cases ha
  | cons x xs ih =>
      rcases List.mem_cons.mp ha with rfl | ha'
      · rcases List.mem_cons.mp hb with rfl | hb'
        · exact absurd rfl hab
        · have := List.length_pos_of_mem hb'
          simp only [List.length_cons]
          omega
      · have := List.length_pos_of_mem ha'
        simp only [List.length_cons]
        omega

/-- C3: removing any single required field from a bundle that
`validateBundle` accepts yields `valid = false` with exactly the
corresponding error; removing a second, distinct required field yields
at least two errors. -/
theorem C3_validation_completeness (b : ClaimBundle) (now : Int) (f g : ReqField)
    (hvalid : (validateBundle b now).fst = true) (hfg : f ≠ g) :
    (validateBundle (removeReqField f b) now).fst = false ∧
    (validateBundle (removeReqField f b) now).snd = [reqFieldError f] ∧
    2 ≤ (validateBundle (removeReqField g (removeReqField f b)) now).snd.length := by
  obtain ⟨h1, h2, h3, h4, h5, h6, h7, h8⟩ := (validateBundle_fst_iff b now).mp hvalid
  have ht : ∀ g', reqTruthy g' b = true := by
    intro g'; cases g' <;> assumption
  have hsegother : ∀ g', g' ≠ f → reqErrSeg g' (removeReqField f b) = [] := by
    intro g' hg'
    simp [reqErrSeg, reqTruthy_remove_other f g' b (Ne.symm hg'), ht g']
  have hsegself : reqErrSeg f (removeReqField f b) = [reqFieldError f] := by
    simp [reqErrSeg, reqTruthy_remove_self f b]
  have hall : ∀ g', reqErrSeg g' (removeReqField f b)
      = if g' = f then [reqFieldError f] else [] := by
    intro g'
    by_cases hg : g' = f
    · subst hg; simp [hsegself]
    · simp [hg, hsegother g' hg]
  have herr : validationErrors (removeReqField f b) now = [reqFieldError f] := by
    rw [validationErrors_segs, expiredCheck_removeReqField, h8,
      hall .version, hall .claimId, hall .proofHash, hall .proofVerificationKey,
      hall .proofPublicInputs, hall .policyNumber, hall .policyClaimType]
    cases f <;> rfl
  refine ⟨by simp [validateBundle, herr], by simp [validateBundle, herr], ?_⟩
  have hfb : reqTruthy f (removeReqField g (removeReqField f b)) = false := by
    rw [reqTruthy_remove_other g f _ (Ne.symm hfg)]
    exact reqTruthy_remove_self f b
  have hgb : reqTruthy g (removeReqField g (removeReqField f b)) = false :=
    reqTruthy_remove_self g _
  have m1 := mem_validationErrors_of_reqTruthy_eq_false f _ now hfb
  have m2 := mem_validationErrors_of_reqTruthy_eq_false g _ now hgb
  have hlen := two_le_length_of_two_mem m1 m2 (reqFieldError_ne f g hfg)
  simpa [validateBundle] using hlen

/-- Witness for C3: removing `version` from the sample bundle, then
also `claimId`. -/
theorem C3_validation_completeness_witness :
    ((validateBundle sampleBundle 40).fst = true ∧
      ReqField.version ≠ ReqField.claimId) ∧
    ((validateBundle (removeReqField .version sampleBundle) 40).fst = false ∧
      (validateBundle (removeReqField .version sampleBundle) 40).snd
        = [reqFieldError .version] ∧
      2 ≤ (validateBundle
            (removeReqField .claimId (removeReqField .version sampleBundle)) 40).snd.length) :=
  ⟨⟨by decide, by decide⟩,
    C3_validation_completeness sampleBundle 40 .version .claimId (by decide) (by decide)⟩

/-- C4 counterexample: `validateBundle` reports `valid = true` for a
bundle whose `expiresAt` exactly equals the current time, for one
missing `expiresAt`, and for one with `expiresAt = 0` — contradicting
the claim that such bundles are not valid. -/
theorem C4_expiry_counterexample :
    sampleBundle.expiresAt = some 50 ∧ (validateBundle sampleBundle 50).fst = true ∧
    bundleNoExpiry.expiresAt = none ∧ (validateBundle bundleNoExpiry 1000).fst = true ∧
    bundleZeroExpiry.expiresAt = some 0 ∧
      (validateBundle bundleZeroExpiry 1000).fst = true := by
  decide

/-- C4 (amended): `validateBundle` returns `valid = true` exactly when
the seven required fields are truthy (present and non-empty) and the
expiry error does not fire, where the expiry error fires only when
`expiresAt` is present, non-zero and strictly less than the current
time.  Bundles whose `expiresAt` is missing, zero, or exactly equal to
the current time therefore pass validation. -/
theorem C4_validation_requirements (b : ClaimBundle) (now : Int) :
    (validateBundle b now).fst = true ↔
      (truthyStr b.version = true ∧ truthyStr b.claimId = true ∧
       truthyStr (b.proof.bind ProofObj.hash) = true ∧
       truthyStr (b.proof.bind ProofObj.verificationKey) = true ∧
       truthyLen (b.proof.bind ProofObj.publicInputs) = true ∧
       truthyStr (b.policy.bind PolicyObj.number) = true ∧
       truthyStr (b.policy.bind PolicyObj.claimType) = true ∧
       expiredCheck b now = false) :=
  validateBundle_fst_iff b now

/-- C10: deserialization success does not imply validity — an input
carrying only `version`, `claimId` and `proof.hash` deserializes to a
non-null bundle that `validateBundle` rejects at every validation
time, reporting the four unchecked required fields. -/
theorem C10_deserialize_not_valid :
    deserializeBundle partialBundleJson = some partialBundle ∧
    partialBundle.proof.bind ProofObj.verificationKey = none ∧
    partialBundle.proof.bind ProofObj.publicInputs = none ∧
    partialBundle.policy = none ∧
    ∀ now : Int, (validateBundle partialBundle now).fst = false ∧
      (validateBundle partialBundle now).snd
        = ["Missing verification key", "Missing public inputs",
           "Missing policy number", "Missing claim type"] := by
  refine ⟨by decide, by decide, by decide, by decide, fun now => ?_⟩
  simp [validateBundle, validationErrors, partialBundle, truthyStr, truthyLen, expiredCheck]

theorem getItem_setItem_self (store : List (String × ClaimRecord)) (k : String)
    (v : ClaimRecord) : getItem (setItem store k v) k = some v := by
  induction store with
  | nil => simp [setItem, getItem]
  | cons p rest ih =>
      obtain ⟨k', v'⟩ := p
      by_cases h : k' = k <;> simp [setItem, getItem, h, ih]

/-- Reading back the claim just published returns the rewritten
record: the update appended to the history, and `currentStatus` and
`lastUpdated` overwritten with the published values. -/
theorem getClaimRecord_publish (s : SyncState) (u : ClaimStatusUpdate) :
    getClaimRecord (publishStatusUpdate s u).state u.claimId
      = some (publishedRecord s u) := by
  simp [getClaimRecord, loadRecord, publishStatusUpdate, publishedRecord, emptyRecordFor,
    getItem_setItem_self]

/-- C1 counterexample: with `updateT1.timestamp = 100 < 200 =
updateT2.timestamp`, publishing `updateT2` first and then `updateT1`
leaves `currentStatus` equal to `updateT1`'s status (the update
delivered last), not `updateT2`'s status (the timestamp-maximal one),
refuting the claim. -/
theorem C1_timestamp_order_counterexample :
    updateT1.timestamp < updateT2.timestamp ∧
    updateT1.claimId = updateT2.claimId ∧
    (getClaimRecord
        (publishStatusUpdate (publishStatusUpdate emptySyncState updateT2).state
          updateT1).state "CLM-1").map ClaimRecord.currentStatus
      = some "under_review" ∧
    updateT2.status = "approved" ∧
    ("under_review" : String) ≠ "approved" := by
  decide

/-- C1 (amended): given two updates for the same claimId with
timestamps T1 < T2, publishing in order (T2, T1) yields
`currentStatus` equal to the status of the T1 update — the update
delivered last — and `lastUpdated` equal to T1: `publishStatusUpdate`
overwrites the summary fields on every call, so arrival order wins
over timestamp order, while the history still records both updates in
arrival order. -/
theorem C1_last_write_wins (s : SyncState) (u2 u1 : ClaimStatusUpdate)
    (hclaim : u1.claimId = u2.claimId) (_hts : u1.timestamp < u2.timestamp) :
    ∃ r : ClaimRecord,
      getClaimRecord (publishStatusUpdate (publishStatusUpdate s u2).state u1).state
          u1.claimId = some r ∧
      r.currentStatus = u1.status ∧ r.lastUpdated = u1.timestamp ∧
      ∃ h0 : List ClaimStatusUpdate, r.history = h0 ++ [u2, u1] := by
  refine ⟨publishedRecord (publishStatusUpdate s u2).state u1,
    getClaimRecord_publish _ u1, rfl, rfl, ?_⟩
  refine ⟨((loadRecord s u2.claimId).getD (emptyRecordFor u2)).history, ?_⟩
  have hload : loadRecord (publishStatusUpdate s u2).state u1.claimId
      = some (publishedRecord s u2) := by
    rw [hclaim]
    exact getClaimRecord_publish s u2
  simp [publishedRecord, hload]

/-- Witness for the amended C1 at the concrete pair of updates. -/
theorem C1_last_write_wins_witness :
    (updateT1.claimId = updateT2.claimId ∧ updateT1.timestamp < updateT2.timestamp) ∧
    (∃ r : ClaimRecord,
      getClaimRecord (publishStatusUpdate (publishStatusUpdate emptySyncState updateT2).state
          updateT1).state updateT1.claimId = some r ∧
      r.currentStatus = updateT1.status ∧ r.lastUpdated = updateT1.timestamp ∧
      ∃ h0 : List ClaimStatusUpdate, r.history = h0 ++ [updateT2, updateT1]) :=
  ⟨⟨by decide, by decide⟩,
    C1_last_write_wins emptySyncState updateT2 updateT1 (by decide) (by decide)⟩

/-- Any listener registered for the published claim id receives the
update among the synchronous same-context deliveries of
`publishStatusUpdate`. -/
theorem mem_localDeliveries_of_listener (s : SyncState) (lid : Nat)
    (u : ClaimStatusUpdate) (h : (u.claimId, lid) ∈ s.listeners) :
    Delivery.mk lid u ∈ (publishStatusUpdate s u).localDeliveries := by
  simp only [publishStatusUpdate, List.mem_append]
  refine Or.inl (List.mem_map.mpr ⟨(u.claimId, lid), ?_, rfl⟩)
  exact List.mem_filter.mpr ⟨h, by simp⟩

/-- C8: a subscriber registered via `subscribeToClaimUpdates` in the
same context as the publisher receives every update for its claim id
as one of the synchronous callback invocations performed by
`publishStatusUpdate` itself (hence before it returns), and this holds
whether or not the broadcast channel is available — the delivery does
not pass through the broadcast or storage paths. -/
theorem C8_same_context_delivery (s : SyncState) (cid : String) (lid : Nat)
    (u : ClaimStatusUpdate) (h : u.claimId = cid) :
    (∀ avail : Bool,
      Delivery.mk lid u ∈
        (publishStatusUpdate
          { subscribeToClaimUpdates s cid lid with channelAvailable := avail }
          u).localDeliveries) ∧
    Delivery.mk lid u ∈
      (publishStatusUpdate (subscribeToClaimUpdates s cid lid) u).localDeliveries := by
  constructor
  · intro avail
    apply mem_localDeliveries_of_listener
    simp [subscribeToClaimUpdates, h]
  · apply mem_localDeliveries_of_listener
    simp [subscribeToClaimUpdates, h]

/-- Witness for C8: a fresh context, listener token `0`, receiving
`updateT1`. -/
theorem C8_same_context_delivery_witness :
    updateT1.claimId = "CLM-1" ∧
    ((∀ avail : Bool,
      Delivery.mk 0 updateT1 ∈
        (publishStatusUpdate
          { subscribeToClaimUpdates emptySyncState "CLM-1" 0 with channelAvailable := avail }
          updateT1).localDeliveries) ∧
    Delivery.mk 0 updateT1 ∈
      (publishStatusUpdate (subscribeToClaimUpdates emptySyncState "CLM-1" 0)
        updateT1).localDeliveries) :=
  ⟨by decide, C8_same_context_delivery emptySyncState "CLM-1" 0 updateT1 (by decide)⟩

/-- The enumerated canonical progression, computed. -/
theorem STATUS_ORDER_enum : STATUS_ORDER.enum =
    [(0, "proof_generated"), (1, "claim_submitted"), (2, "under_review"),
     (3, "verified"), (4, "approved")] := rfl

theorem indexOfStr_lt_length (l : List String) (s : String) :
    indexOfStr l s < (l.length : Int) := by
  induction l with
  | nil => simp [indexOfStr]
  | cons x xs ih =>
      by_cases hx : x = s
      · simp only [indexOfStr, hx, if_true, List.length_cons]
        omega
      · simp only [indexOfStr, hx, if_false, List.length_cons]
        split <;> omega

theorem indexOfStr_not_mem (l : List String) (s : String) (h : s ∉ l) :
    indexOfStr l s = -1 := by
  induction l with
  | nil => rfl
  | cons x xs ih =>
      have hx : x ≠ s := fun e => h (e ▸ List.mem_cons_self x xs)
      have hxs : s ∉ xs := fun e => h (List.mem_cons_of_mem x e)
      simp [indexOfStr, hx, ih hxs]

theorem getStatusIndex_le_four (s : String) : getStatusIndex s ≤ 4 := by
  unfold getStatusIndex
  split
  · decide
  · have h := indexOfStr_lt_length STATUS_ORDER s
    have hlen : (STATUS_ORDER.length : Int) = 5 := by decide
    omega

/-- No projection step at the final index is ever `complete`: the
rejected special case renders it `current`, and otherwise the current
index never exceeds the final index, so the final step is `current` or
`pending`. -/
theorem buildSteps_last_not_complete (s : String) (hist : List ClaimStatusUpdate) :
    ((buildSteps s hist).getD 4 defaultStep).status ≠ StepStatus.complete := by
  have hle := getStatusIndex_le_four s
  unfold buildSteps
  rw [STATUS_ORDER_enum]
  simp only [List.map_cons, List.map_nil, List.getD_cons_succ, List.getD_cons_zero]
  by_cases hrej : s = "rejected"
  · simp +decide [hrej]
  · simp only [hrej, and_false, if_false]
    rw [if_neg (by omega)]
    split <;> simp

/-- C5: for a record whose `currentStatus` is `verified`, the
projection yields the five canonical steps in order, with the first
three `complete`, the `verified` step `current`, and the `approved`
step `pending`, for every history. -/
theorem C5_verified_projection (r : ClaimRecord) (h : r.currentStatus = "verified") :
    (buildSteps r.currentStatus r.history).map StatusStep.status
      = [.complete, .complete, .complete, .current, .pending] ∧
    (buildSteps r.currentStatus r.history).map StatusStep.id = STATUS_ORDER := by
  rw [h]
  constructor <;>
    · simp only [buildSteps, STATUS_ORDER_enum]
      simp +decide [STATUS_ORDER, getStatusIndex, indexOfStr]

/-- Witness for C5 at a concrete verified record. -/
theorem C5_verified_projection_witness :
    verifiedRecord.currentStatus = "verified" ∧
    ((buildSteps verifiedRecord.currentStatus verifiedRecord.history).map StatusStep.status
        = [.complete, .complete, .complete, .current, .pending] ∧
      (buildSteps verifiedRecord.currentStatus verifiedRecord.history).map StatusStep.id
        = STATUS_ORDER) :=
  ⟨rfl, C5_verified_projection verifiedRecord rfl⟩

/-- C6: for a record whose `currentStatus` is `rejected`, `rejected`
maps to the same index as `approved`, the four earlier steps are
`complete`, and the final step renders as a `current` "Claim Rejected"
step; moreover for every status string and history, the step at the
final index is never `complete`. -/
theorem C6_rejected_projection (r : ClaimRecord) (h : r.currentStatus = "rejected") :
    getStatusIndex "rejected" = getStatusIndex "approved" ∧
    (buildSteps r.currentStatus r.history).map StatusStep.status
      = [.complete, .complete, .complete, .complete, .current] ∧
    ((buildSteps r.currentStatus r.history).getD 4 defaultStep).id = "rejected" ∧
    ((buildSteps r.currentStatus r.history).getD 4 defaultStep).label = "Claim Rejected" ∧
    ((buildSteps r.currentStatus r.history).getD 4 defaultStep).status = .current ∧
    (∀ s : String, ∀ hist : List ClaimStatusUpdate,
      ((buildSteps s hist).getD 4 defaultStep).status ≠ StepStatus.complete) := by
  rw [h]
  refine ⟨by decide, ?_, ?_, ?_, ?_, buildSteps_last_not_complete⟩ <;>
    · simp only [buildSteps, STATUS_ORDER_enum]
      simp +decide [STATUS_ORDER, getStatusIndex, indexOfStr, statusLabel]

/-- Witness for C6 at a concrete rejected record. -/
theorem C6_rejected_projection_witness :
    rejectedRecord.currentStatus = "rejected" ∧
    (getStatusIndex "rejected" = getStatusIndex "approved" ∧
     (buildSteps rejectedRecord.currentStatus rejectedRecord.history).map StatusStep.status
       = [.complete, .complete, .complete, .complete, .current] ∧
     ((buildSteps rejectedRecord.currentStatus rejectedRecord.history).getD 4
        defaultStep).id = "rejected" ∧
     ((buildSteps rejectedRecord.currentStatus rejectedRecord.history).getD 4
        defaultStep).label = "Claim Rejected" ∧
     ((buildSteps rejectedRecord.currentStatus rejectedRecord.history).getD 4
        defaultStep).status = .current ∧
     (∀ s : String, ∀ hist : List ClaimStatusUpdate,
       ((buildSteps s hist).getD 4 defaultStep).status ≠ StepStatus.complete)) :=
  ⟨rfl, C6_rejected_projection rejectedRecord rfl⟩

/-- C7: for a current status matching no canonical entry (and not
`rejected`), the projection still returns the five canonical steps,
all `pending` — no step is `complete` or `current`, and the total
function never crashes. -/
theorem C7_unknown_status (s : String) (hist : List ClaimStatusUpdate)
    (h1 : s ∉ STATUS_ORDER) (h2 : s ≠ "rejected") :
    (buildSteps s hist).length = 5 ∧
    (buildSteps s hist).map StatusStep.status
      = [.pending, .pending, .pending, .pending, .pending] ∧
    (buildSteps s hist).map StatusStep.id = STATUS_ORDER := by
  have hidx : getStatusIndex s = -1 := by
    simp [getStatusIndex, h2, indexOfStr_not_mem _ _ h1]
  refine ⟨?_, ?_, ?_⟩ <;>
    · simp only [buildSteps, STATUS_ORDER_enum]
      simp +decide [STATUS_ORDER, hidx, h2]

/-- Witness for C7 at a corrupt status string. -/
theorem C7_unknown_status_witness :
    ("corrupt_status" ∉ STATUS_ORDER ∧ ("corrupt_status" : String) ≠ "rejected") ∧
    ((buildSteps "corrupt_status" []).length = 5 ∧
     (buildSteps "corrupt_status" []).map StatusStep.status
       = [.pending, .pending, .pending, .pending, .pending] ∧
     (buildSteps "corrupt_status" []).map StatusStep.id = STATUS_ORDER) :=
  ⟨⟨by decide, by decide⟩, C7_unknown_status "corrupt_status" [] (by decide) (by decide)⟩

/-- C9: for every loaded bundle, `verify` produces all five labelled
checks whatever each check's outcome (no short-circuiting: each
check's pass/fail equals its own independent predicate), the overall
`isValid` is the conjunction of the five results, all five checks are
recorded in the result, and the final state is `VALID` exactly when
every check passed and `INVALID` otherwise. -/
theorem C9_verify_all_checks (b : ClaimBundle) (now : Int) (cryptoValid : Bool) :
    (verifyChecks b now cryptoValid).length = 5 ∧
    (verifyChecks b now cryptoValid).map VerificationCheck.label
      = ["Bundle Structure", "Expiry Check", "Circuit Identifier",
         "Cryptographic Proof", "Public Inputs"] ∧
    (verifyChecks b now cryptoValid).map VerificationCheck.passed
      = [(validateBundle b now).fst, !(isExpired b now),
         truthyStr (b.proof.bind ProofObj.circuit), cryptoValid,
         decide (0 < publicInputCount b)] ∧
    (verifyResult b now cryptoValid).isValid
      = ((validateBundle b now).fst && !(isExpired b now) &&
         truthyStr (b.proof.bind ProofObj.circuit) && cryptoValid &&
         decide (0 < publicInputCount b)) ∧
    (verifyResult b now cryptoValid).checks = verifyChecks b now cryptoValid ∧
    (verifyFinalState b now cryptoValid = .VALID ↔
      (verifyResult b now cryptoValid).isValid = true) ∧
    (verifyFinalState b now cryptoValid = .INVALID ↔
      (verifyResult b now cryptoValid).isValid = false) := by
  refine ⟨rfl, rfl, rfl, ?_, rfl, ?_, ?_⟩
  · simp [verifyResult, verifyChecks, Bool.and_assoc]
  · by_cases hall : (verifyChecks b now cryptoValid).all VerificationCheck.passed
    · simp [verifyFinalState, verifyResult, hall]
    · simp only [Bool.not_eq_true] at hall
      simp [verifyFinalState, verifyResult, hall]
  · by_cases hall : (verifyChecks b now cryptoValid).all VerificationCheck.passed
    · simp [verifyFinalState, verifyResult, hall]
    · simp only [Bool.not_eq_true] at hall
      simp [verifyFinalState, verifyResult, hall]
